import Mathlib

/-!
Verification of the call-codegen core of alt-research/subxt
(`codegen/src/api/calls.rs`, function `generate_calls`).

The generator consumes runtime metadata (pallets, their call variants with
named/unnamed/absent field lists and per-field boxing flags, and a fingerprint
table keyed by pallet and call name) and emits, per pallet, a `calls` module
containing one struct per call variant, a `subxt::Call` trait association
binding the struct to the raw pallet/call names, and a `TransactionApi`
aggregate whose accessor methods embed the generation-time call hash and, in
checked mode, compare it against the live runtime's hash before constructing
the call payload. The checked-mode comparison the source emits is ill-typed
Rust (an `Option<[u8; 32]>` compared with `==` against a bare `[u8; 32]`);
the embedding keeps that defect visible (see `optionHashEqHash`) instead of
repairing it.

The embedding below mirrors the source token-stream construction as a
structured value (`CallsModule`) and gives the generated accessor bodies an
executable semantics (`invokeChecked` / `invokeUnchecked`).
-/

/-- A runtime value supplied as an argument to a generated accessor.
`Value.boxed` models one layer of heap indirection (`Box::new`). -/
inductive Value
  | v (n : Nat)
  | boxed (x : Value)
deriving DecidableEq

/-- One named field of a call variant, as produced by the upstream field-shape
resolver: its name, its type path, and the upstream-supplied boxing flag
(`field.is_boxed()` in the source). -/
structure FieldDef where
  name : String
  type_path : String
  is_boxed : Bool
deriving DecidableEq

/-- Modelled from the spec: the field shape of one composite (from
`crate::types::CompositeDefFields`, which is not part of this repository
slice). A variant's parameters are either all named, absent, or positional. -/
inductive CompositeDefFields
  | Named (named_fields : List FieldDef)
  | NoFields
  | Unnamed (type_paths : List String)
deriving DecidableEq

/-- Modelled from the spec: a synthesized struct definition (from
`crate::types::CompositeDef`): a type name, a field shape, and a relocatable
documentation slot (`docs.take()` in the source requires an option). -/
structure CompositeDef where
  name : String
  fields : CompositeDefFields
  docs : Option String
deriving DecidableEq

/-- One call variant of a pallet's call enum, as described by the metadata:
its raw name, its field shape, and its documentation. -/
structure Variant where
  name : String
  fields : CompositeDefFields
  docs : Option String
deriving DecidableEq

/-- The resolved definition of a call enum type: its variants and the
type-level documentation lines (`call_ty.docs()` in the source). -/
structure TypeDef where
  variants : List Variant
  docs : List String
deriving DecidableEq

/-- Modelled from the spec: the type generator (from `crate::types`), reduced
to the one operation the source uses, resolving a type id to its definition.
The source panics on an unknown id; no claim exercises that case, so an
unknown id resolves to an empty definition here. -/
structure TypeGenerator where
  types : List (Nat × TypeDef)
deriving DecidableEq

def TypeGenerator.resolve_type (tg : TypeGenerator) (id : Nat) : TypeDef :=
  ((tg.types.lookup id).getD ⟨[], []⟩)

/-- The optional call enum of a pallet: a reference to the call enum type
(`call.ty.id()` in the source). -/
structure PalletCallMetadata where
  ty_id : Nat
deriving DecidableEq

/-- The slice of `frame_metadata::PalletMetadata` the source reads: the raw
pallet name and the optional call enum. -/
structure PalletMetadata where
  name : String
  calls : Option PalletCallMetadata
deriving DecidableEq

/-- A call fingerprint: the fixed-length byte sequence `[u8; 32]`, modelled as
a list of bytes compared only for equality. -/
abbrev CallHash := List Nat

/-- The slice of `RuntimeMetadataV14` the fingerprint lookups read: the
fingerprint table keyed by (pallet name, call name). The same lookup serves
generation time (`subxt_metadata::get_call_hash`) and call time
(`metadata.call_hash::<T>()`, keyed by the struct's capability association). -/
structure RuntimeMetadataV14 where
  call_hashes : List ((String × String) × CallHash)
deriving DecidableEq

/-- Modelled from the spec: call-time metadata errors of the runtime client
(`::subxt::MetadataError`, not part of this repository slice). The lookup
failure identifies the missing key; `incompatibleMetadata` is the explicit
stale-schema error the generated accessor returns on hash mismatch. -/
inductive MetadataError
  | callNotFound (pallet call : String)
  | incompatibleMetadata
deriving DecidableEq

/-- Modelled from the spec: `::subxt::BasicError`, the accessor's error type;
metadata errors convert into it (the `?` and `.into()` in the source). -/
inductive BasicError
  | metadata (e : MetadataError)
deriving DecidableEq

/-- Modelled from the spec: the fingerprint lookup
`resolve(schema, module_name, operation_name) -> Fingerprint`
(`subxt_metadata::get_call_hash` and the live `metadata.call_hash`, neither
part of this repository slice): a lookup keyed by (pallet name, call name)
returning the fingerprint or a not-found failure. -/
def get_call_hash (metadata : RuntimeMetadataV14) (pallet_name call_name : String) :
    Except MetadataError CallHash :=
  match metadata.call_hashes.lookup (pallet_name, call_name) with
  | some h => .ok h
  | none => .error (.callNotFound pallet_name call_name)

/-- Modelled from the spec: `heck::ToUpperCamelCase` on ASCII identifiers —
split on underscores, capitalize each word. -/
def capitalizeWord (w : List Char) : String :=
  match w with
  | [] => ""
  | c :: cs => String.mk (c.toUpper :: cs.map Char.toLower)

/-- Split a character list at underscores. -/
def splitWords : List Char → List (List Char)
  | [] => [[]]
  | c :: cs =>
    if c = '_' then [] :: splitWords cs
    else
      match splitWords cs with
      | [] => [[c]]
      | w :: ws => (c :: w) :: ws

def toUpperCamelCase (s : String) : String :=
  String.join ((splitWords s.data).map capitalizeWord)

/-- Modelled from the spec: `heck::ToSnakeCase` on ASCII identifiers — a
lowercase letter followed by an uppercase letter gets an underscore between
them, and everything is lowercased. -/
def snakeAux : List Char → List Char
  | [] => []
  | c :: cs => (if c.isUpper then ['_', c.toLower] else [c]) ++ snakeAux cs

def toSnakeCase (s : String) : String :=
  match s.data with
  | [] => ""
  | c :: cs => String.mk (c.toLower :: snakeAux cs)

/-- A generation-time fatal error: `proc_macro_error::abort_call_site!`
aborts the whole generation run carrying the formatted message. -/
inductive GenError
  | abortCallSite (msg : String)
deriving DecidableEq

/-- The message of the abort on a positional-fields variant:
source formats "Call variant for type –ty id– must have all named fields". -/
def unnamedAbortMsg (ty_id : Nat) : String :=
  "Call variant for type " ++ toString ty_id ++ " must have all named fields"

/-- The message of the abort on a missing fingerprint: source formats
"Metadata information for the call –pallet–_–call– could not be found". -/
def hashAbortMsg (pallet_name call_name : String) : String :=
  "Metadata information for the call " ++ pallet_name ++ "_" ++ call_name
    ++ " could not be found"

/-- A call-site argument expression in the constructed payload:
either the argument itself or wrapped as Box::new(arg). -/
inductive CallArg
  | plain (name : String)
  | boxed (name : String)
deriving DecidableEq

/-- The emitted struct together with its `impl ::subxt::Call` association:
the two compile-time constants PALLET and FUNCTION. -/
structure CallStructDef where
  struct_def : CompositeDef
  PALLET : String
  FUNCTION : String
deriving DecidableEq

/-- The emitted accessor method on `TransactionApi`: its docs (relocated from
the struct), its snake-case name, its parameter list (name, type path) in
field order, the compiled-in call hash, and the payload construction —
the struct name and the per-field argument expressions. -/
structure ClientFn where
  docs : Option String
  fn_name : String
  call_fn_args : List (String × String)
  call_hash : CallHash
  struct_name : String
  call_args : List CallArg
deriving DecidableEq

/-- The emitted `pub mod calls`: its doc lines (from the call enum type) and
the per-variant (struct + trait impl, accessor) pairs. The module always also
contains the `TransactionApi` struct with its `new` constructor holding a
client reference and a phantom marker; that part is variant-independent and
carries no data, so it is implicit in this structure. -/
structure CallsModule where
  docs : List String
  pairs : List (CallStructDef × ClientFn)
deriving DecidableEq

/-- The unzipped `#( #call_structs )*` items of the module. -/
def CallsModule.call_structs (m : CallsModule) : List CallStructDef :=
  m.pairs.map Prod.fst

/-- The unzipped `#( #call_fns )*` accessor methods of the module. -/
def CallsModule.call_fns (m : CallsModule) : List ClientFn :=
  m.pairs.map Prod.snd

/-- Modelled from the spec: `super::generate_structs_from_variants` (in
`api/mod.rs`, not part of this repository slice) — the struct synthesizer:
one (variant name, struct) pair per variant of the resolved call enum, the
struct name derived by the supplied closure, fields and docs preserved. -/
def generate_structs_from_variants (tg : TypeGenerator) (ty_id : Nat)
    (variant_to_struct_name : String → String) : List (String × CompositeDef) :=
  (tg.resolve_type ty_id).variants.map
    (fun v => (v.name, ⟨variant_to_struct_name v.name, v.fields, v.docs⟩))

/-- The body of the per-variant closure in `generate_calls`: compute the
accessor parameter list and the call-site argument list from the field shape
(aborting on `Unnamed`), resolve the call hash (aborting when absent), drain
the struct documentation onto the accessor, and emit the
(struct + `impl ::subxt::Call`, accessor) pair: see `generate_call_pair`.

The match on `struct_def.fields` computing the accessor parameter list
`call_fn_args` and the call-site argument list `call_args` (the
`.map(..).unzip()` over the named fields), aborting on positional fields. -/
def fieldsResult (struct_def : CompositeDef) (call_ty_id : Nat) :
    Except GenError (List (String × String) × List CallArg) :=
  match struct_def.fields with
  | .Named named_fields =>
      .ok (named_fields.map (fun field =>
        ((field.name, field.type_path),
          if field.is_boxed then CallArg.boxed field.name
          else CallArg.plain field.name))).unzip
  | .NoFields => .ok ([], [])
  | .Unnamed _ => .error (.abortCallSite (unnamedAbortMsg call_ty_id))

def generate_call_pair (metadata : RuntimeMetadataV14) (pallet : PalletMetadata)
    (call_ty_id : Nat) (variant_name : String) (struct_def : CompositeDef) :
    Except GenError (CallStructDef × ClientFn) :=
  match fieldsResult struct_def call_ty_id with
  | .error e => .error e
  | .ok (call_fn_args, call_args) =>
    match get_call_hash metadata pallet.name variant_name with
    | .error _ =>
      .error (.abortCallSite (hashAbortMsg pallet.name variant_name))
    | .ok call_hash =>
      -- docs.take(): drained from the struct, attached to the accessor.
      .ok (⟨{ struct_def with docs := none }, pallet.name, variant_name⟩,
        ⟨struct_def.docs, toSnakeCase variant_name, call_fn_args, call_hash,
          struct_def.name, call_args⟩)

/-- The `.map(..).unzip()` over `struct_defs`, with the closure's aborts
propagating out: the first abort ends the whole run. -/
def traverseCalls (metadata : RuntimeMetadataV14) (pallet : PalletMetadata)
    (call_ty_id : Nat) :
    List (String × CompositeDef) → Except GenError (List (CallStructDef × ClientFn))
  | [] => .ok []
  | (variant_name, struct_def) :: rest =>
    match generate_call_pair metadata pallet call_ty_id variant_name struct_def with
    | .error e => .error e
    | .ok pair =>
      match traverseCalls metadata pallet call_ty_id rest with
      | .error e => .error e
      | .ok pairs => .ok (pair :: pairs)

/-- `generate_calls`: early-return empty output (`none`) for a pallet with no
calls; otherwise synthesize the structs, generate all pairs (a fatal abort is
an `Except.error`), and assemble the `calls` module with the call enum type's
doc lines. -/
def generate_calls (metadata : RuntimeMetadataV14) (type_gen : TypeGenerator)
    (pallet : PalletMetadata) : Except GenError (Option CallsModule) :=
  match pallet.calls with
  | none => .ok none
  | some call =>
    match traverseCalls metadata pallet call.ty_id
        (generate_structs_from_variants type_gen call.ty_id toUpperCamelCase) with
    | .error e => .error e
    | .ok pairs =>
      .ok (some ⟨(type_gen.resolve_type call.ty_id).docs, pairs⟩)

/-- The constructed call payload handle
(`::subxt::SubmittableExtrinsic::new(self.client, call)`): the struct value —
its type name and its named field values. The client reference and phantom
type parameters carry no payload data and are omitted. -/
structure SubmittableExtrinsic where
  struct_name : String
  call : List (String × Value)
deriving DecidableEq

/-- Evaluate one call-site argument expression against the supplied
arguments: a boxed field's argument gains exactly one indirection layer. -/
def CallArg.eval (env : String → Value) : CallArg → String × Value
  | .plain n => (n, env n)
  | .boxed n => (n, .boxed (env n))

/-- The struct-literal construction `#struct_name { #( #call_args, )* }`. -/
def mkPayload (call_args : List CallArg) (env : String → Value) :
    List (String × Value) :=
  call_args.map (CallArg.eval env)

/-- The ill-typed comparison `runtime_call_hash == [#(#call_hash,)*]` of the
generated checked accessor: `runtime_call_hash` is bound to
`Some(metadata.call_hash::<T>()?)`, an `Option<[u8; 32]>`, and is compared
with `==` against the bare embedded `[u8; 32]` array. Rust defines no
`PartialEq<[u8; 32]>` for `Option<[u8; 32]>` (and the orphan rule prevents a
downstream crate from adding one), so the generated checked-mode accessor
does not typecheck and can never compile. As an equality between values of
two distinct types it can never hold, which this embedding records by
letting the comparison be constantly false: the success branch is
unreachable. -/
def optionHashEqHash (_ : Option CallHash) (_ : CallHash) : Bool := false

/-- The checked-mode accessor body (default cfg) as the source writes it:
read the live metadata, look up the runtime call hash by the struct's
capability association (propagating a lookup failure via the question-mark
operator), then compare the `Some`-wrapped runtime hash (an
`Option<[u8; 32]>`) with `==` against the bare compiled-in `[u8; 32]` hash
array. That comparison is ill-typed Rust (see `optionHashEqHash`), so it
never holds and the payload-constructing branch is unreachable: after a
successful lookup the accessor always returns the incompatible-metadata
error, regardless of the fingerprints. -/
def invokeChecked (live : RuntimeMetadataV14) (cs : CallStructDef)
    (f : ClientFn) (env : String → Value) : Except BasicError SubmittableExtrinsic :=
  match get_call_hash live cs.PALLET cs.FUNCTION with
  | .error e => .error (.metadata e)
  | .ok h =>
    let runtime_call_hash : Option CallHash := some h
    if optionHashEqHash runtime_call_hash f.call_hash then
      .ok ⟨f.struct_name, mkPayload f.call_args env⟩
    else
      .error (.metadata .incompatibleMetadata)

/-- The unchecked-mode accessor body (cfg feature "not-metadata-check"): no
comparison, always construct. -/
def invokeUnchecked (f : ClientFn) (env : String → Value) :
    Except BasicError SubmittableExtrinsic :=
  .ok ⟨f.struct_name, mkPayload f.call_args env⟩

/-- A concrete fixture metadata scenario (cf. the spec scenario: pallet
"Balances", one call with fields dest and value, hash [1,2,3,4]). -/
def exVariant : Variant :=
  ⟨"transfer_funds", .Named [⟨"dest", "AccountId", false⟩, ⟨"value", "Balance", true⟩],
    some "Transfer some funds."⟩

def exTypeGen : TypeGenerator :=
  ⟨[(0, ⟨[exVariant], ["Balances pallet calls."]⟩)]⟩

def exPallet : PalletMetadata := ⟨"Balances", some ⟨0⟩⟩

def exMetadata : RuntimeMetadataV14 := ⟨[(("Balances", "transfer_funds"), [1, 2, 3, 4])]⟩



/-- The generated struct + trait association the fixture produces. -/
def exCallStruct : CallStructDef :=
  ⟨⟨"TransferFunds",
      .Named [⟨"dest", "AccountId", false⟩, ⟨"value", "Balance", true⟩], none⟩,
    "Balances", "transfer_funds"⟩

/-- The generated accessor the fixture produces. -/
def exClientFn : ClientFn :=
  ⟨some "Transfer some funds.", "transfer_funds",
    [("dest", "AccountId"), ("value", "Balance")], [1, 2, 3, 4], "TransferFunds",
    [.plain "dest", .boxed "value"]⟩

/-- The generated calls module the fixture produces. -/
def exModule : CallsModule :=
  ⟨["Balances pallet calls."], [(exCallStruct, exClientFn)]⟩

/-- A live metadata whose fingerprint for the fixture call differs. -/
def exMetadataStale : RuntimeMetadataV14 :=
  ⟨[(("Balances", "transfer_funds"), [9, 9, 9, 9])]⟩

/-- A metadata with no fingerprint entries at all. -/
def exMetadataEmpty : RuntimeMetadataV14 := ⟨[]⟩

/-- A type generator whose call enum has zero variants. -/
def exTypeGenEmptyEnum : TypeGenerator := ⟨[(0, ⟨[], ["No calls here."]⟩)]⟩

/-- A call enum (type id 7) whose single variant "foo" has positional fields. -/
def exTypeGenFoo : TypeGenerator :=
  ⟨[(7, ⟨[⟨"foo", .Unnamed ["u8"], none⟩], []⟩)]⟩

/-- The same call enum except the offending variant is named "bar". -/
def exTypeGenBar : TypeGenerator :=
  ⟨[(7, ⟨[⟨"bar", .Unnamed ["u8"], none⟩], []⟩)]⟩

/-- A pallet whose call enum is type id 7. -/
def exPallet7 : PalletMetadata := ⟨"Balances", some ⟨7⟩⟩

/-- A metadata holding a fingerprint for the "foo" variant. -/
def exMetadataFoo : RuntimeMetadataV14 := ⟨[(("Balances", "foo"), [5])]⟩

/-- A pallet declaring no call enum at all. -/
def exPalletNoCalls : PalletMetadata := ⟨"System", none⟩

/-- A variant with no fields. -/
def exVariantNoFields : Variant := ⟨"remark_stop", .NoFields, some "Stop."⟩

/-- A type generator whose call enum mixes a named-fields variant and a
no-fields variant. -/
def exTypeGenMixed : TypeGenerator :=
  ⟨[(0, ⟨[exVariant, exVariantNoFields], ["Mixed calls."]⟩)]⟩

/-- Fingerprints for both variants of the mixed fixture. -/
def exMetadataMixed : RuntimeMetadataV14 :=
  ⟨[(("Balances", "transfer_funds"), [1, 2, 3, 4]),
    (("Balances", "remark_stop"), [4, 4])]⟩


/-- Whether `pat` occurs as a contiguous substring of a character list (used
to state what an abort message does or does not mention). -/
def hasSubstr (pat : List Char) : List Char → Bool
  | [] => pat.isEmpty
  | c :: cs => pat.isPrefixOf (c :: cs) || hasSubstr pat cs


/-- The struct + trait association generated for the no-fields variant. -/
def exCallStructNoFields : CallStructDef :=
  ⟨⟨"RemarkStop", .NoFields, none⟩, "Balances", "remark_stop"⟩

/-- The accessor generated for the no-fields variant. -/
def exClientFnNoFields : ClientFn :=
  ⟨some "Stop.", "remark_stop", [], [4, 4], "RemarkStop", []⟩

/-- The module generated from the mixed fixture. -/
def exModuleMixed : CallsModule :=
  ⟨["Mixed calls."],
    [(exCallStruct, exClientFn), (exCallStructNoFields, exClientFnNoFields)]⟩

/-! ### Structural lemmas about the generator -/

theorem fieldsResult_named (sn : String) (d : Option String) (nf : List FieldDef)
    (tid : Nat) :
    fieldsResult ⟨sn, .Named nf, d⟩ tid =
      .ok (nf.map (fun field => (field.name, field.type_path)),
        nf.map (fun field =>
          if field.is_boxed then CallArg.boxed field.name
          else CallArg.plain field.name)) := by
  simp [fieldsResult, List.unzip_eq_map, Function.comp]

theorem fieldsResult_nofields (sn : String) (d : Option String) (tid : Nat) :
    fieldsResult ⟨sn, .NoFields, d⟩ tid = .ok ([], []) := rfl

theorem fieldsResult_unnamed (sn : String) (d : Option String)
    (tys : List String) (tid : Nat) :
    fieldsResult ⟨sn, .Unnamed tys, d⟩ tid =
      .error (.abortCallSite (unnamedAbortMsg tid)) := rfl

theorem generate_call_pair_ok (m : RuntimeMetadataV14) (p : PalletMetadata)
    (tid : Nat) (vn : String) (sd : CompositeDef) (fa : List (String × String))
    (ca : List CallArg) (h : CallHash)
    (hf : fieldsResult sd tid = .ok (fa, ca))
    (hh : get_call_hash m p.name vn = .ok h) :
    generate_call_pair m p tid vn sd =
      .ok (⟨{ sd with docs := none }, p.name, vn⟩,
        ⟨sd.docs, toSnakeCase vn, fa, h, sd.name, ca⟩) := by
  simp [generate_call_pair, hf, hh]

theorem generate_call_pair_unnamed (m : RuntimeMetadataV14) (p : PalletMetadata)
    (tid : Nat) (vn sn : String) (d : Option String) (tys : List String) :
    generate_call_pair m p tid vn ⟨sn, .Unnamed tys, d⟩ =
      .error (.abortCallSite (unnamedAbortMsg tid)) := by
  simp [generate_call_pair, fieldsResult_unnamed]

theorem generate_call_pair_missing_hash (m : RuntimeMetadataV14)
    (p : PalletMetadata) (tid : Nat) (vn : String) (sd : CompositeDef)
    (fa : List (String × String)) (ca : List CallArg) (e : MetadataError)
    (hf : fieldsResult sd tid = .ok (fa, ca))
    (hh : get_call_hash m p.name vn = .error e) :
    generate_call_pair m p tid vn sd =
      .error (.abortCallSite (hashAbortMsg p.name vn)) := by
  simp [generate_call_pair, hf, hh]

theorem generate_call_pair_ok_inv {m : RuntimeMetadataV14} {p : PalletMetadata}
    {tid : Nat} {vn : String} {sd : CompositeDef} {pr : CallStructDef × ClientFn}
    (h : generate_call_pair m p tid vn sd = .ok pr) :
    ∃ fa ca ch, fieldsResult sd tid = .ok (fa, ca) ∧
      get_call_hash m p.name vn = .ok ch ∧
      pr = (⟨{ sd with docs := none }, p.name, vn⟩,
        ⟨sd.docs, toSnakeCase vn, fa, ch, sd.name, ca⟩) := by
  unfold generate_call_pair at h
  cases hf : fieldsResult sd tid with
  | error e => rw [hf] at h; simp at h
  | ok far =>
    obtain ⟨fa, ca⟩ := far
    rw [hf] at h
    cases hh : get_call_hash m p.name vn with
    | error e => rw [hh] at h; simp at h
    | ok ch =>
      rw [hh] at h
      simp only [Except.ok.injEq] at h
      exact ⟨fa, ca, ch, rfl, rfl, h.symm⟩

theorem traverseCalls_ok_forall₂ (m : RuntimeMetadataV14) (p : PalletMetadata)
    (tid : Nat) :
    ∀ (l : List (String × CompositeDef)) (pairs : List (CallStructDef × ClientFn)),
      traverseCalls m p tid l = .ok pairs →
      List.Forall₂ (fun x pr => generate_call_pair m p tid x.1 x.2 = .ok pr)
        l pairs := by
  intro l
  induction l with
  | nil =>
    intro pairs h
    simp only [traverseCalls, Except.ok.injEq] at h
    subst h
    exact List.Forall₂.nil
  | cons x rest ih =>
    intro pairs h
    obtain ⟨vn, sd⟩ := x
    simp only [traverseCalls] at h
    cases hg : generate_call_pair m p tid vn sd with
    | error e => rw [hg] at h; simp at h
    | ok pair =>
      rw [hg] at h
      cases ht : traverseCalls m p tid rest with
      | error e => rw [ht] at h; simp at h
      | ok prs =>
        rw [ht] at h
        simp only [Except.ok.injEq] at h
        subst h
        exact List.Forall₂.cons hg (ih prs ht)

theorem forall₂_exists_right {α β : Type _} {R : α → β → Prop} :
    ∀ {l : List α} {l2 : List β}, List.Forall₂ R l l2 →
      ∀ b ∈ l2, ∃ a ∈ l, R a b := by
  intro l l2 h
  induction h with
  | nil => intro b hb; cases hb
  | cons hr _ ih =>
    intro b hb
    cases hb with
    | head => exact ⟨_, List.mem_cons_self _ _, hr⟩
    | tail _ hb =>
      obtain ⟨a, ha, hra⟩ := ih b hb
      exact ⟨a, List.mem_cons_of_mem _ ha, hra⟩

theorem forall₂_exists_left {α β : Type _} {R : α → β → Prop} :
    ∀ {l : List α} {l2 : List β}, List.Forall₂ R l l2 →
      ∀ a ∈ l, ∃ b ∈ l2, R a b := by
  intro l l2 h
  induction h with
  | nil => intro a ha; cases ha
  | cons hr _ ih =>
    intro a ha
    cases ha with
    | head => exact ⟨_, List.mem_cons_self _ _, hr⟩
    | tail _ ha =>
      obtain ⟨b, hb, hrb⟩ := ih a ha
      exact ⟨b, List.mem_cons_of_mem _ hb, hrb⟩

theorem generate_calls_ok_some {m : RuntimeMetadataV14} {tg : TypeGenerator}
    {p : PalletMetadata} {out : CallsModule}
    (h : generate_calls m tg p = .ok (some out)) :
    ∃ c, p.calls = some c ∧
      out.docs = (tg.resolve_type c.ty_id).docs ∧
      traverseCalls m p c.ty_id
        (generate_structs_from_variants tg c.ty_id toUpperCamelCase) =
          .ok out.pairs := by
  unfold generate_calls at h
  cases hc : p.calls with
  | none => rw [hc] at h; simp at h
  | some c =>
    rw [hc] at h
    dsimp only at h
    cases ht : traverseCalls m p c.ty_id
        (generate_structs_from_variants tg c.ty_id toUpperCamelCase) with
    | error e => rw [ht] at h; simp at h
    | ok pairs =>
      rw [ht] at h
      simp only [Except.ok.injEq, Option.some.injEq] at h
      subst h
      exact ⟨c, rfl, rfl, ht⟩

theorem get_call_hash_error_shape {m : RuntimeMetadataV14} {pn cn : String}
    {e : MetadataError} (h : get_call_hash m pn cn = .error e) :
    e = .callNotFound pn cn := by
  unfold get_call_hash at h
  cases hl : m.call_hashes.lookup (pn, cn) with
  | some v => rw [hl] at h; simp at h
  | none =>
    rw [hl] at h
    simp only [Except.error.injEq] at h
    exact h.symm

theorem fieldsResult_not_unnamed {sd : CompositeDef} {tid : Nat}
    (h : ∀ tys, sd.fields ≠ .Unnamed tys) :
    ∃ fa ca, fieldsResult sd tid = .ok (fa, ca) := by
  obtain ⟨sn, fl, d⟩ := sd
  cases fl with
  | Named nf => exact ⟨_, _, fieldsResult_named sn d nf tid⟩
  | NoFields => exact ⟨[], [], rfl⟩
  | Unnamed tys => exact absurd rfl (h tys)

theorem mkPayload_named (nf : List FieldDef) (env : String → Value) :
    mkPayload (nf.map (fun field =>
        if field.is_boxed then CallArg.boxed field.name
        else CallArg.plain field.name)) env =
      nf.map (fun field =>
        (field.name,
          if field.is_boxed then Value.boxed (env field.name)
          else env field.name)) := by
  induction nf with
  | nil => rfl
  | cons field rest ih =>
    cases hb : field.is_boxed <;>
      simp [mkPayload, CallArg.eval, hb] <;>
      simpa [mkPayload] using ih

theorem traverseCalls_unnamed_abort (m : RuntimeMetadataV14) (p : PalletMetadata)
    (tid : Nat) :
    ∀ l : List (String × CompositeDef),
      (∀ x ∈ l, ∃ h, get_call_hash m p.name x.1 = .ok h) →
      (∃ x ∈ l, ∃ tys, x.2.fields = .Unnamed tys) →
      traverseCalls m p tid l = .error (.abortCallSite (unnamedAbortMsg tid)) := by
  intro l
  induction l with
  | nil => intro _ hex; simp at hex
  | cons x rest ih =>
    intro hok hex
    obtain ⟨vn, sd⟩ := x
    by_cases hu : ∃ tys, sd.fields = .Unnamed tys
    · obtain ⟨tys, htys⟩ := hu
      have hpair : generate_call_pair m p tid vn sd =
          .error (.abortCallSite (unnamedAbortMsg tid)) := by
        obtain ⟨sn, fl, d⟩ := sd
        simp only at htys
        subst htys
        exact generate_call_pair_unnamed m p tid vn sn d tys
      simp [traverseCalls, hpair]
    · obtain ⟨h, hh⟩ := hok (vn, sd) (List.mem_cons_self _ _)
      obtain ⟨fa, ca, hfr⟩ :=
        @fieldsResult_not_unnamed sd tid (fun tys htys => hu ⟨tys, htys⟩)
      have hpair := generate_call_pair_ok m p tid vn sd fa ca h hfr hh
      have hex' : ∃ x ∈ rest, ∃ tys, x.2.fields = .Unnamed tys := by
        obtain ⟨y, hy, hty⟩ := hex
        cases hy with
        | head => exact absurd hty hu
        | tail _ hy => exact ⟨y, hy, hty⟩
      have ht := ih (fun x hx => hok x (List.mem_cons_of_mem _ hx)) hex'
      simp [traverseCalls, hpair, ht]

theorem traverseCalls_missing_hash_abort (m : RuntimeMetadataV14)
    (p : PalletMetadata) (tid : Nat) :
    ∀ l : List (String × CompositeDef),
      (∀ x ∈ l, ∀ tys, x.2.fields ≠ .Unnamed tys) →
      (∃ x ∈ l, ∃ e, get_call_hash m p.name x.1 = .error e) →
      ∃ x ∈ l, (∃ e, get_call_hash m p.name x.1 = .error e) ∧
        traverseCalls m p tid l =
          .error (.abortCallSite (hashAbortMsg p.name x.1)) := by
  intro l
  induction l with
  | nil => intro _ hex; simp at hex
  | cons x rest ih =>
    intro hnu hex
    obtain ⟨vn, sd⟩ := x
    obtain ⟨fa, ca, hfr⟩ :=
      @fieldsResult_not_unnamed sd tid (hnu (vn, sd) (List.mem_cons_self _ _))
    cases hh : get_call_hash m p.name vn with
    | error e =>
      have hpair := generate_call_pair_missing_hash m p tid vn sd fa ca e hfr hh
      refine ⟨(vn, sd), List.mem_cons_self _ _, ⟨e, hh⟩, ?_⟩
      simp [traverseCalls, hpair]
    | ok h =>
      have hpair := generate_call_pair_ok m p tid vn sd fa ca h hfr hh
      have hex' : ∃ x ∈ rest, ∃ e, get_call_hash m p.name x.1 = .error e := by
        obtain ⟨y, hy, e, hye⟩ := hex
        cases hy with
        | head => rw [hye] at hh; cases hh
        | tail _ hy => exact ⟨y, hy, e, hye⟩
      obtain ⟨y, hy, hyerr, ht⟩ :=
        ih (fun x hx => hnu x (List.mem_cons_of_mem _ hx)) hex'
      refine ⟨y, List.mem_cons_of_mem _ hy, hyerr, ?_⟩
      simp [traverseCalls, hpair, ht]

theorem generate_calls_error_of_traverse {m : RuntimeMetadataV14}
    {tg : TypeGenerator} {p : PalletMetadata} {c : PalletCallMetadata}
    {e : GenError} (hc : p.calls = some c)
    (ht : traverseCalls m p c.ty_id
      (generate_structs_from_variants tg c.ty_id toUpperCamelCase) = .error e) :
    generate_calls m tg p = .error e := by
  unfold generate_calls
  rw [hc]
  dsimp only
  rw [ht]

/-! ### Claim theorems -/

/-- C1: the claim's error cases are real (a failed live lookup propagates the
metadata error; after a successful lookup the distinct incompatible-metadata
error is returned, both ordinary values), but its success case is not: the
source's checked accessor compares `Some(runtime hash)`, an
`Option<[u8; 32]>`, with `==` against the bare embedded `[u8; 32]` array —
ill-typed Rust that can never compile and never hold — so even at a live
schema reporting exactly the embedded fingerprint the accessor returns the
incompatible-metadata error and never constructs the payload. This theorem
evaluates the code at that failing input: the fixture call with embedded
hash [1,2,3,4] and a live schema reporting [1,2,3,4]. -/
theorem C1_checked_never_succeeds :
    get_call_hash exMetadata exCallStruct.PALLET exCallStruct.FUNCTION =
      .ok exClientFn.call_hash ∧
    invokeChecked exMetadata exCallStruct exClientFn (fun _ => Value.v 7) =
      .error (.metadata .incompatibleMetadata) ∧
    invokeChecked exMetadataEmpty exCallStruct exClientFn (fun _ => Value.v 7) =
      .error (.metadata (.callNotFound "Balances" "transfer_funds")) :=
  ⟨rfl, rfl, rfl⟩

/-- C2: refuted on the code as written. At identical arguments and equal
fingerprints the unchecked accessor returns Ok with the constructed payload,
but the checked accessor cannot succeed at all: its fingerprint comparison
is the ill-typed Option-vs-array equality (see `optionHashEqHash`), so it
returns the incompatible-metadata error even when the live schema reports
exactly the embedded fingerprint. Evaluated at the fixture failing input. -/
theorem C2_checked_diverges_from_unchecked :
    get_call_hash exMetadata exCallStruct.PALLET exCallStruct.FUNCTION =
      .ok exClientFn.call_hash ∧
    invokeUnchecked exClientFn (fun _ => Value.v 3) =
      .ok ⟨"TransferFunds",
        [("dest", Value.v 3), ("value", Value.boxed (Value.v 3))]⟩ ∧
    invokeChecked exMetadata exCallStruct exClientFn (fun _ => Value.v 3) =
      .error (.metadata .incompatibleMetadata) :=
  ⟨rfl, rfl, rfl⟩

/-- C8: a pallet that declares no call enum at all produces the empty output
(no structs, no trait impls, no TransactionApi: the early `return quote!()`,
modelled as `none`). -/
theorem C8_no_calls_emits_nothing (m : RuntimeMetadataV14) (tg : TypeGenerator)
    (p : PalletMetadata) (h : p.calls = none) :
    generate_calls m tg p = .ok none := by
  unfold generate_calls
  rw [h]

/-- C8 witness: the fixture pallet without calls. -/
theorem C8_no_calls_emits_nothing_witness :
    generate_calls exMetadata exTypeGen exPalletNoCalls = .ok none :=
  C8_no_calls_emits_nothing exMetadata exTypeGen exPalletNoCalls rfl

/-- C10: a present call enum with zero variants still yields a module (with
the enum docs and an empty pair list, the TransactionApi part of the module
being variant-independent); the nothing-is-emitted guard fires only when the
call enum is absent. -/
theorem C10_empty_enum_still_emits_module (m : RuntimeMetadataV14)
    (tg : TypeGenerator) (p : PalletMetadata) (c : PalletCallMetadata)
    (hc : p.calls = some c)
    (hv : (tg.resolve_type c.ty_id).variants = []) :
    generate_calls m tg p =
      .ok (some ⟨(tg.resolve_type c.ty_id).docs, []⟩) := by
  unfold generate_calls
  rw [hc]
  dsimp only
  unfold generate_structs_from_variants
  rw [hv]
  rfl

/-- C10 witness: a pallet whose call enum exists but has no variants. -/
theorem C10_empty_enum_still_emits_module_witness :
    generate_calls exMetadataEmpty exTypeGenEmptyEnum exPallet =
      .ok (some ⟨["No calls here."], []⟩) :=
  C10_empty_enum_still_emits_module exMetadataEmpty exTypeGenEmptyEnum
    exPallet ⟨0⟩ rfl rfl

/-- C3 counterexample: the abort on a positional-fields variant does not name
the offending operation. At a concrete schema whose only call variant "foo"
has positional fields, generation aborts with a message that mentions only
the call enum's type id; the variant name "foo" does not occur in it, and a
schema differing only in that name ("bar") produces the identical error. -/
theorem C3_unnamed_abort_counterexample :
    generate_calls exMetadataFoo exTypeGenFoo exPallet7 =
      .error (.abortCallSite
        "Call variant for type 7 must have all named fields") ∧
    generate_calls exMetadataFoo exTypeGenBar exPallet7 =
      .error (.abortCallSite
        "Call variant for type 7 must have all named fields") ∧
    hasSubstr "foo".data
      "Call variant for type 7 must have all named fields".data = false ∧
    hasSubstr "bar".data
      "Call variant for type 7 must have all named fields".data = false :=
  ⟨rfl, rfl, by decide, by decide⟩

/-- C3 (amended): a call variant with positional (unnamed) fields makes
generation fail with a fatal, process-aborting error; the error names the
call enum's type id, not the offending operation's own name. -/
theorem C3_unnamed_fields_abort (m : RuntimeMetadataV14) (tg : TypeGenerator)
    (p : PalletMetadata) (c : PalletCallMetadata)
    (hc : p.calls = some c)
    (hok : ∀ v ∈ (tg.resolve_type c.ty_id).variants,
      ∃ h, get_call_hash m p.name v.name = .ok h)
    (hun : ∃ v ∈ (tg.resolve_type c.ty_id).variants,
      ∃ tys, v.fields = .Unnamed tys) :
    generate_calls m tg p =
      .error (.abortCallSite (unnamedAbortMsg c.ty_id)) := by
  refine generate_calls_error_of_traverse hc ?_
  refine traverseCalls_unnamed_abort m p c.ty_id _ ?_ ?_
  · intro x hx
    unfold generate_structs_from_variants at hx
    obtain ⟨v, hv, rfl⟩ := List.mem_map.mp hx
    exact hok v hv
  · obtain ⟨v, hv, tys, htys⟩ := hun
    refine ⟨(v.name, ⟨toUpperCamelCase v.name, v.fields, v.docs⟩), ?_, tys, htys⟩
    unfold generate_structs_from_variants
    exact List.mem_map_of_mem _ hv

/-- C3 witness: the amended theorem at the concrete "foo" schema, whose
fingerprint is present so only the field shape is at fault. -/
theorem C3_unnamed_fields_abort_witness :
    generate_calls exMetadataFoo exTypeGenFoo exPallet7 =
      .error (.abortCallSite (unnamedAbortMsg 7)) := by
  refine C3_unnamed_fields_abort exMetadataFoo exTypeGenFoo exPallet7 ⟨7⟩ rfl ?_ ?_
  · intro v hv
    simp only [exTypeGenFoo, TypeGenerator.resolve_type, List.lookup] at hv
    simp at hv
    subst hv
    exact ⟨[5], rfl⟩
  · exact ⟨⟨"foo", .Unnamed ["u8"], none⟩, by simp [exTypeGenFoo, TypeGenerator.resolve_type, List.lookup], ["u8"], rfl⟩

/-- C4: for a declared call enum (with no positional-fields variant reaching
the abort first), a missing fingerprint entry for some (pallet name, call
name) key makes generation fail with a fatal abort identifying that pair;
and whenever generation succeeds, every emitted accessor embeds exactly the
fingerprint resolved for its struct's (PALLET, FUNCTION) key. -/
theorem C4_fingerprint_resolution (m : RuntimeMetadataV14) (tg : TypeGenerator)
    (p : PalletMetadata) (c : PalletCallMetadata)
    (hc : p.calls = some c) :
    ((∀ v ∈ (tg.resolve_type c.ty_id).variants, ∀ tys, v.fields ≠ .Unnamed tys) →
     (∃ v ∈ (tg.resolve_type c.ty_id).variants,
        ∃ e, get_call_hash m p.name v.name = .error e) →
     ∃ v ∈ (tg.resolve_type c.ty_id).variants,
       get_call_hash m p.name v.name = .error (.callNotFound p.name v.name) ∧
       generate_calls m tg p =
         .error (.abortCallSite (hashAbortMsg p.name v.name))) ∧
    (∀ out, generate_calls m tg p = .ok (some out) →
      ∀ cs f, (cs, f) ∈ out.pairs →
        get_call_hash m cs.PALLET cs.FUNCTION = .ok f.call_hash) := by
  constructor
  · intro hnu hex
    have hnu' : ∀ x ∈ generate_structs_from_variants tg c.ty_id toUpperCamelCase,
        ∀ tys, x.2.fields ≠ .Unnamed tys := by
      intro x hx
      unfold generate_structs_from_variants at hx
      obtain ⟨v, hv, rfl⟩ := List.mem_map.mp hx
      exact hnu v hv
    have hex' : ∃ x ∈ generate_structs_from_variants tg c.ty_id toUpperCamelCase,
        ∃ e, get_call_hash m p.name x.1 = .error e := by
      obtain ⟨v, hv, e, he⟩ := hex
      refine ⟨(v.name, ⟨toUpperCamelCase v.name, v.fields, v.docs⟩), ?_, e, he⟩
      unfold generate_structs_from_variants
      exact List.mem_map_of_mem _ hv
    obtain ⟨x, hx, ⟨e, he⟩, ht⟩ :=
      traverseCalls_missing_hash_abort m p c.ty_id _ hnu' hex'
    unfold generate_structs_from_variants at hx
    obtain ⟨v, hv, rfl⟩ := List.mem_map.mp hx
    have hsh := get_call_hash_error_shape he
    subst hsh
    exact ⟨v, hv, he, generate_calls_error_of_traverse hc ht⟩
  · intro out hgen cs f hmem
    obtain ⟨c0, hc0, hdocs, htrav⟩ := generate_calls_ok_some hgen
    obtain ⟨x, hx, hgp⟩ :=
      forall₂_exists_right (traverseCalls_ok_forall₂ m p c0.ty_id _ _ htrav)
        _ hmem
    obtain ⟨fa, ca, ch, hfr, hh, hpr⟩ := generate_call_pair_ok_inv hgp
    injection hpr with h1 h2
    subst h1
    subst h2
    exact hh

/-- C4 witness: the fixture call with an empty fingerprint table aborts with
the message identifying the (pallet, call) pair. -/
theorem C4_fingerprint_resolution_witness :
    generate_calls exMetadataEmpty exTypeGen exPallet =
      .error (.abortCallSite
        "Metadata information for the call Balances_transfer_funds could not be found") := by
  obtain ⟨v, hv, herr, hgen⟩ :=
    (C4_fingerprint_resolution exMetadataEmpty exTypeGen exPallet ⟨0⟩ rfl).1
      (by
        intro v hv tys
        simp only [exTypeGen, TypeGenerator.resolve_type, List.lookup] at hv
        simp at hv
        subst hv
        simp [exVariant])
      ⟨exVariant,
        by simp [exTypeGen, TypeGenerator.resolve_type, List.lookup],
        .callNotFound "Balances" "transfer_funds", rfl⟩
  simp only [exTypeGen, TypeGenerator.resolve_type, List.lookup] at hv
  simp at hv
  subst hv
  exact hgen

/-- C5: for a named-fields variant, the generated accessor's parameter list
preserves the schema field order and names; in the constructed payload a
boxed field's argument is wrapped in exactly one Box layer and an unboxed
field's argument passes through unchanged. -/
theorem C5_named_field_mapping (m : RuntimeMetadataV14) (tg : TypeGenerator)
    (p : PalletMetadata) (out : CallsModule) (c : PalletCallMetadata)
    (v : Variant) (nf : List FieldDef)
    (hgen : generate_calls m tg p = .ok (some out))
    (hc : p.calls = some c)
    (hv : v ∈ (tg.resolve_type c.ty_id).variants)
    (hnf : v.fields = .Named nf) :
    ∃ cs f, (cs, f) ∈ out.pairs ∧ cs.FUNCTION = v.name ∧
      f.call_fn_args = nf.map (fun field => (field.name, field.type_path)) ∧
      f.call_fn_args.map Prod.fst = nf.map FieldDef.name ∧
      ∀ env, mkPayload f.call_args env =
        nf.map (fun field =>
          (field.name,
            if field.is_boxed then Value.boxed (env field.name)
            else env field.name)) := by
  obtain ⟨c0, hc0, hdocs, htrav⟩ := generate_calls_ok_some hgen
  rw [hc] at hc0
  injection hc0 with hcc
  subst hcc
  have hmemx : (v.name, (⟨toUpperCamelCase v.name, v.fields, v.docs⟩ : CompositeDef)) ∈
      generate_structs_from_variants tg c.ty_id toUpperCamelCase := by
    unfold generate_structs_from_variants
    exact List.mem_map_of_mem _ hv
  obtain ⟨pr, hpr, hgp⟩ :=
    forall₂_exists_left (traverseCalls_ok_forall₂ m p c.ty_id _ _ htrav)
      _ hmemx
  obtain ⟨fa, ca, ch, hfr, hh, hpreq⟩ := generate_call_pair_ok_inv hgp
  subst hpreq
  rw [show (⟨toUpperCamelCase v.name, v.fields, v.docs⟩ : CompositeDef) =
      ⟨toUpperCamelCase v.name, .Named nf, v.docs⟩ by rw [hnf]] at hfr
  rw [fieldsResult_named] at hfr
  simp only [Except.ok.injEq, Prod.mk.injEq] at hfr
  obtain ⟨hfa, hca⟩ := hfr
  subst hfa
  subst hca
  refine ⟨_, _, hpr, rfl, rfl, ?_, ?_⟩
  · simp [List.map_map, Function.comp]
  · intro env
    exact mkPayload_named nf env

/-- C5 witness: the fixture accessor's parameters and payload for the
(dest, unboxed) and (value, boxed) fields. -/
theorem C5_named_field_mapping_witness :
    ∃ cs f, (cs, f) ∈ exModule.pairs ∧ cs.FUNCTION = "transfer_funds" ∧
      f.call_fn_args = [("dest", "AccountId"), ("value", "Balance")] ∧
      f.call_fn_args.map Prod.fst = ["dest", "value"] ∧
      ∀ env, mkPayload f.call_args env =
        [("dest", env "dest"), ("value", Value.boxed (env "value"))] := by
  have h := C5_named_field_mapping exMetadata exTypeGen exPallet exModule ⟨0⟩
    exVariant [⟨"dest", "AccountId", false⟩, ⟨"value", "Balance", true⟩]
    rfl rfl
    (by simp [exTypeGen, TypeGenerator.resolve_type, List.lookup]) rfl
  simpa [exVariant] using h

/-- C6: in an assembled module every variant's documentation is drained from
the generated struct (left `none`) and attached to the corresponding accessor
method instead, and the module's own doc lines are those of the call enum
type resolved from the schema. -/
theorem C6_docs_relocation (m : RuntimeMetadataV14) (tg : TypeGenerator)
    (p : PalletMetadata) (out : CallsModule)
    (hgen : generate_calls m tg p = .ok (some out)) :
    (∀ c, p.calls = some c → out.docs = (tg.resolve_type c.ty_id).docs) ∧
    (∀ cs f, (cs, f) ∈ out.pairs →
      cs.struct_def.docs = none ∧
      ∃ c, p.calls = some c ∧
        ∃ v ∈ (tg.resolve_type c.ty_id).variants,
          cs.FUNCTION = v.name ∧ f.docs = v.docs) := by
  obtain ⟨c0, hc0, hdocs, htrav⟩ := generate_calls_ok_some hgen
  constructor
  · intro c hcc
    rw [hc0] at hcc
    injection hcc with h
    subst h
    exact hdocs
  · intro cs f hmem
    obtain ⟨x, hx, hgp⟩ :=
      forall₂_exists_right (traverseCalls_ok_forall₂ m p c0.ty_id _ _ htrav)
        _ hmem
    unfold generate_structs_from_variants at hx
    obtain ⟨v, hv, rfl⟩ := List.mem_map.mp hx
    obtain ⟨fa, ca, ch, hfr, hh, hpr⟩ := generate_call_pair_ok_inv hgp
    injection hpr with h1 h2
    subst h1
    subst h2
    exact ⟨rfl, c0, hc0, v, hv, rfl, rfl⟩

/-- C6 witness: the fixture struct carries no docs, its accessor carries the
variant's docs, and the module carries the call enum's docs. -/
theorem C6_docs_relocation_witness :
    exCallStruct.struct_def.docs = none ∧
    exClientFn.docs = some "Transfer some funds." ∧
    exModule.docs = ["Balances pallet calls."] := by
  have h := C6_docs_relocation exMetadata exTypeGen exPallet exModule rfl
  refine ⟨(h.2 exCallStruct exClientFn (by simp [exModule])).1, rfl, ?_⟩
  exact h.1 ⟨0⟩ rfl

/-- C7: a variant with no fields yields a struct with no fields and an
accessor whose parameter list is empty (only the receiver) and whose payload
is constructed with an empty field list. -/
theorem C7_nofields_empty (m : RuntimeMetadataV14) (tg : TypeGenerator)
    (p : PalletMetadata) (out : CallsModule) (c : PalletCallMetadata)
    (v : Variant)
    (hgen : generate_calls m tg p = .ok (some out))
    (hc : p.calls = some c)
    (hv : v ∈ (tg.resolve_type c.ty_id).variants)
    (hnf : v.fields = .NoFields) :
    ∃ cs f, (cs, f) ∈ out.pairs ∧ cs.FUNCTION = v.name ∧
      cs.struct_def.fields = .NoFields ∧
      f.call_fn_args = [] ∧ f.call_args = [] ∧
      ∀ env, mkPayload f.call_args env = [] := by
  obtain ⟨c0, hc0, hdocs, htrav⟩ := generate_calls_ok_some hgen
  rw [hc] at hc0
  injection hc0 with hcc
  subst hcc
  have hmemx : (v.name, (⟨toUpperCamelCase v.name, v.fields, v.docs⟩ : CompositeDef)) ∈
      generate_structs_from_variants tg c.ty_id toUpperCamelCase := by
    unfold generate_structs_from_variants
    exact List.mem_map_of_mem _ hv
  obtain ⟨pr, hpr, hgp⟩ :=
    forall₂_exists_left (traverseCalls_ok_forall₂ m p c.ty_id _ _ htrav)
      _ hmemx
  obtain ⟨fa, ca, ch, hfr, hh, hpreq⟩ := generate_call_pair_ok_inv hgp
  subst hpreq
  rw [show (⟨toUpperCamelCase v.name, v.fields, v.docs⟩ : CompositeDef) =
      ⟨toUpperCamelCase v.name, .NoFields, v.docs⟩ by rw [hnf]] at hfr
  rw [fieldsResult_nofields] at hfr
  simp only [Except.ok.injEq, Prod.mk.injEq] at hfr
  obtain ⟨hfa, hca⟩ := hfr
  subst hfa
  subst hca
  exact ⟨_, _, hpr, rfl, hnf ▸ rfl, rfl, rfl, fun _ => rfl⟩

/-- C7 witness: the no-fields variant of the mixed fixture. -/
theorem C7_nofields_empty_witness :
    ∃ cs f, (cs, f) ∈ exModuleMixed.pairs ∧ cs.FUNCTION = "remark_stop" ∧
      cs.struct_def.fields = .NoFields ∧
      f.call_fn_args = [] ∧ f.call_args = [] ∧
      ∀ env, mkPayload f.call_args env = [] := by
  have h := C7_nofields_empty exMetadataMixed exTypeGenMixed exPallet
    exModuleMixed ⟨0⟩ exVariantNoFields rfl rfl
    (by simp [exTypeGenMixed, TypeGenerator.resolve_type, List.lookup]) rfl
  simpa [exVariantNoFields] using h

/-- C9: the capability-association constants PALLET and FUNCTION bound by the
emitted trait impl are exactly the raw pallet name and variant name from the
schema — not the upper-camel struct name or the snake-case accessor name —
the generation-time fingerprint lookup is keyed by these same constants and
yields the accessor's embedded fingerprint, and the call-time lookup of the
checked accessor uses the same (PALLET, FUNCTION) key: a live schema with no
entry at that key makes the accessor propagate exactly that key's
lookup error. -/
theorem C9_capability_association (m : RuntimeMetadataV14) (tg : TypeGenerator)
    (p : PalletMetadata) (out : CallsModule)
    (hgen : generate_calls m tg p = .ok (some out)) :
    ∀ cs f, (cs, f) ∈ out.pairs →
      cs.PALLET = p.name ∧
      (∃ c, p.calls = some c ∧
        ∃ v ∈ (tg.resolve_type c.ty_id).variants,
          cs.FUNCTION = v.name ∧
          cs.struct_def.name = toUpperCamelCase v.name ∧
          f.fn_name = toSnakeCase v.name) ∧
      get_call_hash m cs.PALLET cs.FUNCTION = .ok f.call_hash ∧
      (∀ live env e, get_call_hash live cs.PALLET cs.FUNCTION = .error e →
        invokeChecked live cs f env = .error (.metadata e)) := by
  intro cs f hmem
  obtain ⟨c0, hc0, hdocs, htrav⟩ := generate_calls_ok_some hgen
  obtain ⟨x, hx, hgp⟩ :=
    forall₂_exists_right (traverseCalls_ok_forall₂ m p c0.ty_id _ _ htrav)
      _ hmem
  unfold generate_structs_from_variants at hx
  obtain ⟨v, hv, rfl⟩ := List.mem_map.mp hx
  obtain ⟨fa, ca, ch, hfr, hh, hpr⟩ := generate_call_pair_ok_inv hgp
  injection hpr with h1 h2
  subst h1
  subst h2
  refine ⟨rfl, ⟨c0, hc0, v, hv, rfl, rfl, rfl⟩, hh, ?_⟩
  intro live env e hlive
  simp [invokeChecked, hlive]

/-- C9 witness: the fixture association, the generation-time lookup at the
raw key, and the call-time lookup error propagated from the same key. -/
theorem C9_capability_association_witness :
    exCallStruct.PALLET = "Balances" ∧
    exCallStruct.FUNCTION = "transfer_funds" ∧
    exCallStruct.struct_def.name = toUpperCamelCase "transfer_funds" ∧
    exClientFn.fn_name = toSnakeCase "transfer_funds" ∧
    get_call_hash exMetadata exCallStruct.PALLET exCallStruct.FUNCTION =
      .ok exClientFn.call_hash ∧
    invokeChecked exMetadataEmpty exCallStruct exClientFn (fun _ => Value.v 1) =
      .error (.metadata (.callNotFound "Balances" "transfer_funds")) := by
  have h := C9_capability_association exMetadata exTypeGen exPallet exModule
    rfl exCallStruct exClientFn (by simp [exModule])
  exact ⟨rfl, rfl, rfl, rfl, h.2.2.1,
    h.2.2.2 exMetadataEmpty (fun _ => Value.v 1)
      (.callNotFound "Balances" "transfer_funds") rfl⟩
